import Mathlib

/-!
Verification of the YouTube monitoring pipeline (`app.py`) against its
specification.  The Python source is shallowly embedded: Python strings are
Lean `String`s (lists of characters), SQLite tables are lists of row
structures with `INSERT OR REPLACE` modelled as a keyed upsert, and the
external collaborators (YouTube discovery, transcript API, Gemini, Google
Drive) are oracle functions supplied through an environment record.
-/

set_option maxRecDepth 2600

/-! ## Python string primitives

Python `str` operations used by the source, modelled on the character list
backing Lean's `String`. -/

/-- Python slicing `s[:n]`. -/
def pyTake (s : String) (n : Nat) : String := ⟨s.data.take n⟩

/-- Characters stripped by Python's `str.strip()` (ASCII whitespace). -/
def pySpace (c : Char) : Bool :=
  c = ' ' || c = '\t' || c = '\n' || c = '\r' || c = '\x0b' || c = '\x0c'

/-- Python `str.strip()`: remove trailing whitespace, then leading whitespace.
Implemented as: reverse, drop the (reversed) trailing run, reverse back, then
drop the leading run. -/
def pyStripList (l : List Char) : List Char :=
  ((l.reverse.dropWhile pySpace).reverse).dropWhile pySpace

/-- Python `str.strip()` on a string. -/
def pyStrip (s : String) : String := ⟨pyStripList s.data⟩

/-- Python `'. '.split` helper: split a character list on the two-character
separator `". "`, keeping empty pieces, exactly like Python `str.split(". ")`.
The accumulator holds the current piece reversed. -/
def splitDot : List Char → List Char → List (List Char)
  | [], acc => [acc.reverse]
  | '.' :: ' ' :: rest, acc => acc.reverse :: splitDot rest []
  | c :: rest, acc => splitDot rest (c :: acc)

/-- Python `transcript.split('. ')`. -/
def pySplit (s : String) : List String :=
  (splitDot s.data []).map fun cs => ⟨cs⟩

/-- Python `' '.join(segments)`. -/
def joinSp : List String → String
  | [] => ""
  | [s] => s
  | s :: rest => s ++ " " ++ joinSp rest

/-- Python `'\n'.join(lines)`. -/
def joinNl : List String → String
  | [] => ""
  | [s] => s
  | s :: rest => s ++ "\n" ++ joinNl rest

/-- Concatenation of a list of strings (for stating the chunk-coverage
property). -/
def sconcat : List String → String
  | [] => ""
  | s :: rest => s ++ sconcat rest

/-- The second character of a string, if any (used by test oracles to
distinguish prompt kinds). -/
def secondChar (s : String) : Option Char :=
  match s.data with
  | _ :: c :: _ => some c
  | _ => none

/-! ## Prompt templates (`INDIVIDUAL_VIDEO_PROMPT`, `DAILY_SUMMARY_PROMPT`,
and the inline chunk prompt of `smart_chunk_processing`) -/

/-- Template `INDIVIDUAL_VIDEO_PROMPT` up to the transcript placeholder. -/
def INDIVIDUAL_VIDEO_PROMPT_pre : String :=
  "\nDu bist ein Experte für YouTube-Video-Zusammenfassungen im Finanz- und Krypto-Bereich.\n\nErstelle eine strukturierte deutsche Zusammenfassung dieses YouTube-Video-Transkripts:\n\n**STRUKTUR:**\n1. **Hauptthema** - Worum geht es in einem Satz?\n2. **Kernaussagen** - Die 3-5 wichtigsten Punkte als Stichpunkte\n3. **Details & Insights** - Interessante Fakten, Zahlen oder Erkenntnisse\n4. **Fazit** - Was ist die wichtigste Erkenntnis oder der Aufruf zum Handeln?\n\n**RICHTLINIEN:**\n- Fokus auf Fakten und konkrete Inhalte\n- Ignoriere Füllwörter und Wiederholungen\n- Hervorhebung von Preiszielen, Empfehlungen oder Warnungen\n- Erwähne wichtige Daten oder Deadlines\n\n**TRANSKRIPTION:**\n"

/-- The format call `INDIVIDUAL_VIDEO_PROMPT.format(transcript=t)`. -/
def individualPrompt (t : String) : String :=
  INDIVIDUAL_VIDEO_PROMPT_pre ++ t ++ "\n"

/-- Template `DAILY_SUMMARY_PROMPT` up to the daily-content placeholder. -/
def DAILY_SUMMARY_PROMPT_pre : String :=
  "\nErstelle eine Executive Summary aller heute verarbeiteten Finanz/Krypto-YouTube-Videos:\n\n**STRUKTUR:**\n1. **Überblick** - Anzahl Videos und Kanäle\n2. **Hauptthemen** - Wiederkehrende oder wichtige Themen des Tages\n3. **Top Insights** - Die wertvollsten Informationen und Empfehlungen\n4. **Markt-Trends** - Was fällt bei Preisen, Projekten oder Entwicklungen auf?\n5. **Action Items** - Konkrete Handlungsempfehlungen aus den Videos\n\n**VIDEOS DES TAGES:**\n"

/-- The format call `DAILY_SUMMARY_PROMPT.format(daily_content=c)`. -/
def dailyPrompt (c : String) : String :=
  DAILY_SUMMARY_PROMPT_pre ++ c ++ "\n"

/-- The chunk prompt built in `smart_chunk_processing` for chunk number `i`
(1-based) out of `total`. -/
def chunkPromptFmt (i total : Nat) (chunk : String) : String :=
  "\nFasse diesen Teil einer YouTube-Transkription zusammen (Teil " ++
    Nat.repr i ++ " von " ++ Nat.repr total ++ "):\n\n" ++ chunk ++
    "\n\nFokus auf:\n- Hauptpunkte und Kernaussagen\n- Wichtige Details und Fakten\n- Zusammenhänge und Schlussfolgerungen\n"

/-! ## Gemini API (`call_gemini_api`)

The HTTP call is an oracle `net : String → Except String String`: `.ok s` is a
successful response with extracted text `s`, `.error e` is any raised
exception with message `e`.  On failure `call_gemini_api` returns the literal
error string from the source. -/

def call_gemini_api (net : String → Except String String) (prompt : String) : String :=
  match net prompt with
  | .ok summary => summary
  | .error e => "Fehler bei der Zusammenfassung: " ++ e

/-! ## Chunking (`smart_chunk_processing`) -/

/-- The greedy packing loop of `smart_chunk_processing`: `cur` is
`current_chunk`, the list argument is the remaining sentences. -/
def packChunks (maxSize : Nat) : List String → String → List String
  | [], cur => if cur = "" then [] else [cur]
  | s :: rest, cur =>
      if maxSize < (cur ++ s).length then
        if cur = "" then s :: packChunks maxSize rest ""
        else cur :: packChunks maxSize rest s
      else packChunks maxSize rest (cur ++ s ++ ". ")

/-- The chunking step of `smart_chunk_processing`: split on `". "` and pack
greedily. -/
def chunkTranscript (maxSize : Nat) (t : String) : List String :=
  packChunks maxSize (pySplit t) ""

/-- The per-chunk summarization loop.  `total` is `len(chunks)`, `k` the
number of chunks already processed (so chunk numbering starts at `k + 1`).
Returns the chunk summaries in order together with the number of Gemini calls
made by the loop. -/
def summarizeChunks (net : String → Except String String) (total : Nat) :
    List String → Nat → List String × Nat
  | [], _ => ([], 0)
  | c :: rest, k =>
      let s := call_gemini_api net (chunkPromptFmt (k + 1) total c)
      let (ss, n) := summarizeChunks net total rest (k + 1)
      (s :: ss, n + 1)

/-- The lines `Teil {i+1}: {summary}` of the synthetic final transcript. -/
def teilLines : List String → Nat → List String
  | [], _ => []
  | s :: rest, k => ("Teil " ++ Nat.repr (k + 1) ++ ": " ++ s) :: teilLines rest (k + 1)

/-- The chunk summaries produced for transcript `t` (empty unless `t` is
oversized). -/
def chunkSummariesOf (net : String → Except String String) (t : String) : List String :=
  (summarizeChunks net (chunkTranscript 30000 t).length (chunkTranscript 30000 t) 0).1

/-- The final reduction prompt built from the ordered chunk summaries. -/
def finalPromptOf (net : String → Except String String) (t : String) : String :=
  individualPrompt (joinNl (teilLines (chunkSummariesOf net t) 0))

/-- Embedding of `smart_chunk_processing`, instrumented with the number of Gemini calls it
makes.  `max_chunk_size = 30000` as in the source. -/
def smart_chunk_processing (net : String → Except String String) (transcript : String) :
    String × Nat :=
  if transcript.length ≤ 30000 then
    (call_gemini_api net (individualPrompt transcript), 1)
  else
    let chunks := chunkTranscript 30000 transcript
    let sc := summarizeChunks net chunks.length chunks 0
    (call_gemini_api net (finalPromptOf net transcript), sc.2 + 1)

/-! ## Transcript fetching (`get_transcript`)

The `youtube_transcript_api` library is an external collaborator, modelled as
oracles.  `TError.notFound` is the library's "no transcript found" exception;
`TError.other` is any other exception (network, quota, ...).  The source wraps
the two inner `find_transcript` calls in bare `except:` clauses and everything
in an outer `try`. -/

inductive TError where
  | notFound
  | other (msg : String)
deriving DecidableEq

/-- One transcript track: its language code and the outcome of `fetch()`
(a list of segment texts, or an exception). -/
structure TranscriptHandle where
  language_code : String
  segments : Except TError (List String)

/-- The object returned by `list_transcripts`, with its two lookup methods. -/
structure TranscriptListO where
  findTranscript : List String → Except TError TranscriptHandle
  findGeneratedTranscript : List String → Except TError TranscriptHandle

/-- The transcript API for one video: the outcome of `list_transcripts`. -/
structure TApi where
  listTranscripts : Except TError TranscriptListO

inductive GetResult where
  | success (transcript language : String)
  | failure (e : TError)
deriving DecidableEq

def isSuccess : GetResult → Bool
  | .success _ _ => true
  | .failure _ => false

/-- Fetch the selected transcript and join its segment texts with spaces
(the tail of `get_transcript` after language selection). -/
def fetchSelected (t : TranscriptHandle) : GetResult :=
  match t.segments with
  | .error e => .failure e
  | .ok segs => .success (joinSp segs) t.language_code

/-- Embedding of `get_transcript`: tier 1 `find_transcript(['de'])`, on any exception
tier 2 `find_transcript(['en'])`, on any exception tier 3
`find_generated_transcript(['de', 'en'])`; errors of `list_transcripts`, of
tier 3, and of the final `fetch()` reach the outer handler. -/
def get_transcript (api : TApi) : GetResult :=
  match api.listTranscripts with
  | .error e => .failure e
  | .ok tl =>
      let sel : Except TError TranscriptHandle :=
        match tl.findTranscript ["de"] with
        | .ok t => .ok t
        | .error _ =>
            match tl.findTranscript ["en"] with
            | .ok t => .ok t
            | .error _ => tl.findGeneratedTranscript ["de", "en"]
      match sel with
      | .error e => .failure e
      | .ok t => fetchSelected t

/-! ## Filename sanitizing (`clean_filename`) -/

/-- The `invalid_chars` string of the source. -/
def invalid_chars : List Char := ['<', '>', ':', '"', '/', '\\', '|', '?', '*']

/-- Python `title.replace(char, '')`. -/
def removeChar (s : String) (c : Char) : String :=
  ⟨s.data.filter (fun d => d ≠ c)⟩

/-- Embedding of `clean_filename`: strip each invalid character in turn, truncate to 100
characters, then `strip()`. -/
def clean_filename (title : String) : String :=
  let t := invalid_chars.foldl removeChar title
  let t := if 100 < t.length then pyTake t 100 else t
  pyStrip t

/-! ## Primary store (SQLite) -/

/-- One row of the `videos` table (`video_id` is UNIQUE). -/
structure VideoRow where
  video_id : String
  channel_name : String
  title : String
  published_at : String
  processed_at : String
  transcript : String
  summary : String
  drive_raw_file_id : Option String
  drive_summary_file_id : Option String
deriving DecidableEq

/-- One row of the `daily_summaries` table (`date` is UNIQUE). -/
structure DigestRow where
  date : String
  summary : String
  created_at : String
  drive_file_id : Option String
deriving DecidableEq

/-- SQLite BINARY collation on TEXT values: lexicographic comparison of the
code points (UTF-8 byte order coincides with code-point order). -/
def listLe : List Char → List Char → Bool
  | [], _ => true
  | _ :: _, [] => false
  | a :: as, b :: bs =>
      if a.toNat < b.toNat then true
      else if b.toNat < a.toNat then false
      else listLe as bs

/-- SQLite `ORDER BY` comparison of two TEXT values. -/
def sqliteLe (a b : String) : Bool := listLe a.data b.data

/-- The ascending order used by `ORDER BY processed_at` in
`create_daily_summary`. -/
def byProcessedAsc (a b : VideoRow) : Prop :=
  sqliteLe a.processed_at b.processed_at = true

instance : DecidableRel byProcessedAsc := fun _ _ =>
  inferInstanceAs (Decidable (_ = true))

/-- Upsert `INSERT OR REPLACE INTO videos`: the UNIQUE constraint on `video_id`
deletes any conflicting row, then the new row is inserted. -/
def upsertVideo (db : List VideoRow) (r : VideoRow) : List VideoRow :=
  db.filter (fun x => x.video_id != r.video_id) ++ [r]

/-- Upsert `INSERT OR REPLACE INTO daily_summaries` (UNIQUE on `date`). -/
def upsertDigest (ds : List DigestRow) (r : DigestRow) : List DigestRow :=
  ds.filter (fun x => x.date != r.date) ++ [r]

/-- The dedup check `SELECT id FROM videos WHERE video_id = ?`. -/
def hasVideo (db : List VideoRow) (id : String) : Bool :=
  db.any (fun r => r.video_id == id)

/-- Number of rows of the `videos` table holding a given item id. -/
def countId (db : List VideoRow) (id : String) : Nat :=
  (db.filter (fun r => r.video_id == id)).length

/-- Number of `daily_summaries` rows for a given calendar date. -/
def countDate (ds : List DigestRow) (d : String) : Nat :=
  (ds.filter (fun r => r.date == d)).length

/-- The digest contents stored for a given calendar date. -/
def digestSummaries (ds : List DigestRow) (d : String) : List String :=
  (ds.filter (fun r => r.date == d)).map (fun r => r.summary)

/-- SQLite `date(processed_at)` on an ISO-8601 timestamp: its first ten
characters `YYYY-MM-DD`. -/
def sqlDate (s : String) : String := pyTake s 10

/-! ## Environment: external collaborators and the clock -/

inductive DriveFolder where
  | raw
  | single
  | daily
deriving DecidableEq

/-- A video as returned by the discovery API. -/
structure RawVideo where
  videoId : String
  title : String
  publishedAt : String
deriving DecidableEq

/-- The configured channel set `YOUTUBERS` (static configuration). -/
structure ChannelCfg where
  key : String
  channel_id : String
  name : String
deriving DecidableEq

def YOUTUBERS : List ChannelCfg :=
  [⟨"finanzfluss", "UCeARcCKcT_yI5l1HOHocTrw", "Finanzfluss"⟩,
   ⟨"talerbox", "UCNWuGqqHFmMy-KyASkH8QLg", "Talerbox"⟩,
   ⟨"investmentpunk", "UC-muQ8tDvOls3zoMBo_41fA", "Investment Punk"⟩,
   ⟨"aktienmitsteve", "UCgPjewCPNX74Rq7MDxPXHHg", "Aktien mit Steve"⟩,
   ⟨"cryptoheroes", "UC_PLACEHOLDER_HIER_DEINE_ECHTE_ID", "CryptoHeroes"⟩]

/-- All external collaborators of one run, plus the wall clock:
`discover` is the YouTube search call per channel id, `tapi` the transcript
API per video id, `net` the Gemini HTTP transport, `upload` the Google Drive
upload (`none` = failure or unconfigured service/folder), `now` the
`datetime.now().isoformat()` timestamp and `today` the current date string. -/
structure MonitorEnv where
  discover : String → List RawVideo
  tapi : String → TApi
  net : String → Except String String
  upload : String → String → DriveFolder → Option String
  now : String
  today : String

/-- Embedding of `upload_to_drive`: returns the Drive file id, or `None` on any failure. -/
def upload_to_drive (env : MonitorEnv) (content filename : String)
    (folder : DriveFolder) : Option String :=
  env.upload content filename folder

/-! ## Persistence (`save_video_to_db_and_drive`) -/

/-- The `video_data` dict assembled in `monitor_videos`. -/
structure VideoData where
  video_id : String
  channel_name : String
  title : String
  published_at : String
  transcript : String
  summary : String
deriving DecidableEq

/-- Embedding of `save_video_to_db_and_drive`: upload the two artifacts (best effort),
then upsert the row keyed by `video_id`, recording the returned artifact ids
(`none` for a failed upload). -/
def save_video_to_db_and_drive (env : MonitorEnv) (db : List VideoRow)
    (v : VideoData) : List VideoRow :=
  let clean_title := clean_filename v.title
  let raw_filename := clean_title ++ ".txt"
  let summary_filename := clean_title ++ "_" ++ env.today ++ ".txt"
  let raw_file_id := upload_to_drive env v.transcript raw_filename .raw
  let summary_file_id := upload_to_drive env v.summary summary_filename .single
  upsertVideo db
    ⟨v.video_id, v.channel_name, v.title, v.published_at, env.now,
     v.transcript, v.summary, raw_file_id, summary_file_id⟩

/-! ## The monitoring pipeline (`monitor_videos`) -/

/-- Processing of one discovered video inside the `monitor_videos` loop:
dedup check, transcript fetch, summarization, persistence.  Returns the new
table state and the number of primary-store writes performed (0 or 1). -/
def processItem (env : MonitorEnv) (chanName : String) (db : List VideoRow)
    (v : RawVideo) : List VideoRow × Nat :=
  if hasVideo db v.videoId then (db, 0)
  else
    match get_transcript (env.tapi v.videoId) with
    | .failure _ => (db, 0)
    | .success text _lang =>
        let summary := (smart_chunk_processing env.net text).1
        (save_video_to_db_and_drive env db
          ⟨v.videoId, chanName, v.title, v.publishedAt, text, summary⟩, 1)

/-- The inner `for video in videos` loop for one channel. -/
def processItems (env : MonitorEnv) (chanName : String) :
    List RawVideo → List VideoRow → List VideoRow × Nat
  | [], db => (db, 0)
  | v :: rest, db =>
      let r := processItem env chanName db v
      let r' := processItems env chanName rest r.1
      (r'.1, r.2 + r'.2)

/-- The outer `for youtube_key, youtube_data in YOUTUBERS.items()` loop.
Returns the table state, the number of primary-store writes, and the number
of discovery API calls made (one `get_channel_videos` per channel). -/
def runChannels (env : MonitorEnv) :
    List ChannelCfg → List VideoRow → List VideoRow × Nat × Nat
  | [], db => (db, 0, 0)
  | ch :: rest, db =>
      let vids := env.discover ch.channel_id
      let r := processItems env ch.name vids db
      let r' := runChannels env rest r.1
      (r'.1, r.2 + r'.2.1, 1 + r'.2.2)

/-- The outcome of one `/monitor` request: the resulting `videos` table, the
number of newly processed items (`len(new_videos)`, which equals the number
of primary-store writes), and the number of discovery API calls. -/
structure MonitorResult where
  db : List VideoRow
  processed : Nat
  discCalls : Nat
deriving DecidableEq

/-- Embedding of `monitor_videos`: the UTC hour gate (`current_hour < 7 or
current_hour > 21` returns immediately), then the channel loop. -/
def monitor_videos (env : MonitorEnv) (hour : Nat) (db : List VideoRow) :
    MonitorResult :=
  if hour < 7 ∨ 21 < hour then ⟨db, 0, 0⟩
  else
    let r := runChannels env YOUTUBERS db
    ⟨r.1, r.2.1, r.2.2⟩

/-! ## Daily aggregation (`create_daily_summary`) -/

/-- The `daily_content` accumulation loop. -/
def buildDailyContent (rows : List VideoRow) : String :=
  rows.foldl
    (fun acc r => acc ++ "\n**" ++ r.channel_name ++ " - " ++ r.title ++ "**\n"
      ++ r.summary ++ "\n\n") ""

/-- The rows returned by
`SELECT ... WHERE date(processed_at) = today ORDER BY processed_at`. -/
def todaysVideos (videos : List VideoRow) (today : String) : List VideoRow :=
  List.insertionSort byProcessedAsc
    (videos.filter (fun r => sqlDate r.processed_at == today))

/-- Embedding of `create_daily_summary` for date `env.today`, with `now` the
`datetime.now()` value used for `created_at`.  Returns the new
`daily_summaries` table and whether a digest was written (`false` = the
"Keine Videos heute verarbeitet" early return, which makes no Gemini call). -/
def create_daily_summary (env : MonitorEnv) (now : String)
    (videos : List VideoRow) (digests : List DigestRow) :
    List DigestRow × Bool :=
  match todaysVideos videos env.today with
  | [] => (digests, false)
  | daily_videos =>
      let daily_content := buildDailyContent daily_videos
      let daily_summary := call_gemini_api env.net (dailyPrompt daily_content)
      let drive_file_id := upload_to_drive env daily_summary
        ("Tages_Zusammenfassung_" ++ env.today ++ ".txt") .daily
      (upsertDigest digests ⟨env.today, daily_summary, now, drive_file_id⟩, true)

/-! ## Video listing (`get_videos`) -/

/-- One JSON object of the `/videos` response. -/
structure VideoJson where
  video_id : String
  channel_name : String
  title : String
  processed_at : String
  summary : String
  youtube_url : String
  drive_raw_file : Option String
  drive_summary_file : Option String
deriving DecidableEq

/-- Rendering of one row, including the 200-character summary preview. -/
def renderVideo (r : VideoRow) : VideoJson :=
  { video_id := r.video_id
    channel_name := r.channel_name
    title := r.title
    processed_at := r.processed_at
    summary := if 200 < r.summary.length then pyTake r.summary 200 ++ "..." else r.summary
    youtube_url := "https://www.youtube.com/watch?v=" ++ r.video_id
    drive_raw_file := r.drive_raw_file_id
    drive_summary_file := r.drive_summary_file_id }

/-- The descending order used by `ORDER BY processed_at DESC`. -/
def byProcessedDesc (a b : VideoRow) : Prop :=
  sqliteLe b.processed_at a.processed_at = true

instance : DecidableRel byProcessedDesc := fun _ _ =>
  inferInstanceAs (Decidable (_ = true))

/-- Embedding of `get_videos`: `ORDER BY processed_at DESC LIMIT 50`, then render each
row. -/
def get_videos (db : List VideoRow) : List VideoJson :=
  (((List.insertionSort byProcessedDesc db).take 50).map renderVideo)

/-! ## Concrete test fixtures used by witnesses and counterexamples -/

/-- A minimal environment: no discoveries, no transcripts, all uploads fail. -/
def trivEnv : MonitorEnv where
  discover := fun _ => []
  tapi := fun _ => ⟨.error .notFound⟩
  net := fun _ => .ok "Zusammenfassung"
  upload := fun _ _ _ => none
  now := "2026-01-01T12:00:00"
  today := "2026-01-01"

/-- A sample video payload for the persistence claims. -/
def wVideoData : VideoData where
  video_id := "abc123"
  channel_name := "Finanzfluss"
  title := "ETF: Test/Video"
  published_at := "2026-01-01T10:00:00Z"
  transcript := "Hallo Welt. Das ist ein Test."
  summary := "Eine Zusammenfassung."

/-- An environment in which exactly one secondary-store upload fails: the
raw-transcript upload returns `None`, the summary upload succeeds. -/
def wEnv8 : MonitorEnv where
  discover := fun _ => []
  tapi := fun _ => ⟨.error .notFound⟩
  net := fun _ => .ok "Zusammenfassung"
  upload := fun _ _ fo => if fo = DriveFolder.raw then none else some "sum-id"
  now := "2026-01-01T12:00:00"
  today := "2026-01-01"

/-- An exact English track whose fetch succeeds. -/
def enHandle : TranscriptHandle := ⟨"en", .ok ["hello", "world"]⟩

/-- A transcript list whose tier-1 lookup (`['de']`) raises a non-not-found
error (an HTTP error), while the tier-2 lookup (`['en']`) succeeds. -/
def cexTL : TranscriptListO where
  findTranscript := fun langs =>
    if langs = ["de"] then .error (.other "HTTPError") else .ok enHandle
  findGeneratedTranscript := fun _ => .error .notFound

def cexApi : TApi := ⟨.ok cexTL⟩

/-- A generated German track whose fetch succeeds. -/
def wGenHandle : TranscriptHandle := ⟨"de", .ok ["guten", "Tag"]⟩

/-- A transcript list with no exact tracks but a generated de/en track. -/
def wTL3 : TranscriptListO where
  findTranscript := fun _ => .error .notFound
  findGeneratedTranscript := fun langs =>
    if langs = ["de", "en"] then .ok wGenHandle else .error .notFound

def wApi3 : TApi := ⟨.ok wTL3⟩

/-- A single 30000-character sentence unit. -/
def bigA : String := ⟨List.replicate 30000 'a'⟩

/-- An oversized transcript (30006 characters > `max_chunk_size`): one
30000-character sentence, then the two short sentences `"b"` and `"c"`. -/
def bigT : String := bigA ++ ". b. c"

/-- A Gemini oracle that fails exactly on chunk prompts (second character
`'F'`, from `"\nFasse diesen Teil..."`) and answers `"Alles gut"` to every
other prompt, in particular to the final reduction prompt (second character
`'D'`, from `"\nDu bist ein Experte..."`). -/
def net2 : String → Except String String := fun p =>
  if secondChar p = some 'F' then .error "boom" else .ok "Alles gut"

/-- An environment in which the first configured channel has one new video
with a German transcript, all Gemini calls succeed and all uploads succeed:
the idempotent-discovery witness. -/
def wEnv2 : MonitorEnv where
  discover := fun cid =>
    if cid = "UCeARcCKcT_yI5l1HOHocTrw" then [⟨"vidX", "Titel X", "2026-01-01T08:00:00Z"⟩]
    else []
  tapi := fun vid =>
    if vid = "vidX" then
      ⟨.ok ⟨fun langs => if langs = ["de"] then .ok ⟨"de", .ok ["hallo", "welt"]⟩
                         else .error .notFound,
            fun _ => .error .notFound⟩⟩
    else ⟨.error .notFound⟩
  net := fun _ => .ok "Kurzfassung"
  upload := fun _ _ _ => some "drive-id"
  now := "2026-01-01T12:00:00"
  today := "2026-01-01"

/-- A title containing invalid filename characters and padding whitespace. -/
def wTitle : String := "  A<B>: C/D?  "

/-- A 201-character summary (strictly longer than the 200-character preview
limit of `/videos`). -/
def longSummary : String := ⟨List.replicate 201 'x'⟩

def wRow1 : VideoRow :=
  ⟨"vid1", "Finanzfluss", "Video Eins", "2026-01-01T08:00:00Z",
   "2026-01-01T10:00:00", "Transkript eins.", "Kurze Zusammenfassung.",
   some "raw1", some "sum1"⟩

def wRow2 : VideoRow :=
  ⟨"vid2", "Talerbox", "Video Zwei", "2026-01-02T08:00:00Z",
   "2026-01-02T10:00:00", "Transkript zwei.", longSummary, none, none⟩

/-- A two-row `videos` table for the `/videos` listing witness. -/
def wdb9 : List VideoRow := [wRow1, wRow2]

/-! # Theorems -/

/-! ## String helper lemmas -/

theorem sdata_append (a b : String) : (a ++ b).data = a.data ++ b.data := rfl

theorem slength (s : String) : s.length = s.data.length := rfl

theorem smk_data (l : List Char) : (⟨l⟩ : String).data = l := rfl

theorem sext {s t : String} (h : s.data = t.data) : s = t := by
  cases s; cases t; exact congrArg String.mk h

theorem sext_iff {s t : String} : s = t ↔ s.data = t.data :=
  ⟨fun h => h ▸ rfl, sext⟩

theorem sempty_data : ("" : String).data = [] := rfl

theorem sappend_assoc (a b c : String) : a ++ b ++ c = a ++ (b ++ c) := by
  apply sext
  simp [sdata_append]

theorem sne_of_data_length {s : String} (h : s.data.length ≠ 0) : s ≠ "" := by
  intro he
  rw [he] at h
  exact h rfl

/-! ## Claim C4: number of Gemini calls made by `smart_chunk_processing` -/

theorem summarizeChunks_snd (net : String → Except String String) (total : Nat) :
    ∀ (cs : List String) (k : Nat), (summarizeChunks net total cs k).2 = cs.length := by
  intro cs
  induction cs with
  | nil => intro k; rfl
  | cons c rest ih =>
      intro k
      simp [summarizeChunks, ih]

/-- Claim C4: a transcript of length at most 30000 characters triggers exactly
one Gemini call; an oversized transcript split into `k` chunks triggers
exactly `k + 1` Gemini calls (one per chunk plus the final reduction). -/
theorem C4_call_count (net : String → Except String String) (t : String) :
    (smart_chunk_processing net t).2 =
      if t.length ≤ 30000 then 1 else (chunkTranscript 30000 t).length + 1 := by
  by_cases h : t.length ≤ 30000
  · simp [smart_chunk_processing, h]
  · simp [smart_chunk_processing, h, summarizeChunks_snd]

/-! ## Claim C5: the UTC hour gate -/

/-- Claim C5: a `/monitor` request at a UTC hour outside the configured
window (hours 7..21 proceed; `hour < 7 or hour > 21` returns early) leaves
the store unchanged, processes zero items and makes zero discovery API
calls. -/
theorem C5_time_gate (env : MonitorEnv) (hour : Nat) (db : List VideoRow)
    (h : hour < 7 ∨ 21 < hour) :
    monitor_videos env hour db = ⟨db, 0, 0⟩ := by
  simp [monitor_videos, h]

theorem C5_time_gate_witness :
    ((3 : Nat) < 7 ∨ 21 < (3 : Nat)) ∧ monitor_videos trivEnv 3 [] = ⟨[], 0, 0⟩ :=
  ⟨Or.inl (by decide), C5_time_gate trivEnv 3 [] (Or.inl (by decide))⟩

/-! ## Claim C8: a secondary-store failure does not prevent the primary write -/

/-- Claim C8: the primary-store upsert in `save_video_to_db_and_drive` is
performed unconditionally, recording as artifact ids exactly what each of the
two Drive uploads returned — `none` precisely for a failed upload.  So a
failure of either upload (one of them, or both) neither rolls back nor
prevents the primary write: the row is still committed, with absent
identifiers recorded for the failed uploads and the successful upload's id
kept. -/
theorem C8_primary_commit_survives_upload_failure (env : MonitorEnv)
    (db : List VideoRow) (v : VideoData) (rawRes sumRes : Option String)
    (hraw : upload_to_drive env v.transcript
      (clean_filename v.title ++ ".txt") DriveFolder.raw = rawRes)
    (hsum : upload_to_drive env v.summary
      (clean_filename v.title ++ "_" ++ env.today ++ ".txt") DriveFolder.single = sumRes) :
    save_video_to_db_and_drive env db v =
      upsertVideo db ⟨v.video_id, v.channel_name, v.title, v.published_at,
        env.now, v.transcript, v.summary, rawRes, sumRes⟩
    ∧ (⟨v.video_id, v.channel_name, v.title, v.published_at, env.now,
        v.transcript, v.summary, rawRes, sumRes⟩ : VideoRow)
        ∈ save_video_to_db_and_drive env db v := by
  refine ⟨by simp [save_video_to_db_and_drive, hraw, hsum], ?_⟩
  simp [save_video_to_db_and_drive, hraw, hsum, upsertVideo]

theorem C8_witness :
    upload_to_drive wEnv8 wVideoData.transcript
      (clean_filename wVideoData.title ++ ".txt") DriveFolder.raw = none
  ∧ upload_to_drive wEnv8 wVideoData.summary
      (clean_filename wVideoData.title ++ "_" ++ wEnv8.today ++ ".txt")
        DriveFolder.single = some "sum-id"
  ∧ (save_video_to_db_and_drive wEnv8 [] wVideoData =
      upsertVideo [] ⟨wVideoData.video_id, wVideoData.channel_name,
        wVideoData.title, wVideoData.published_at, wEnv8.now,
        wVideoData.transcript, wVideoData.summary, none, some "sum-id"⟩
    ∧ (⟨wVideoData.video_id, wVideoData.channel_name, wVideoData.title,
        wVideoData.published_at, wEnv8.now, wVideoData.transcript,
        wVideoData.summary, none, some "sum-id"⟩ : VideoRow)
        ∈ save_video_to_db_and_drive wEnv8 [] wVideoData) :=
  ⟨rfl, rfl,
   C8_primary_commit_survives_upload_failure wEnv8 [] wVideoData none (some "sum-id")
     rfl rfl⟩

/-! ## Claim C10: `clean_filename` -/

theorem removeChar_data (s : String) (c : Char) :
    (removeChar s c).data = s.data.filter (fun d => d ≠ c) := rfl

theorem mem_foldl_removeChar :
    ∀ (cs : List Char) (s : String) (d : Char),
      d ∈ (cs.foldl removeChar s).data → d ∈ s.data ∧ d ∉ cs := by
  intro cs
  induction cs with
  | nil => intro s d h; simpa using h
  | cons c cs' ih =>
      intro s d h
      rw [List.foldl_cons] at h
      obtain ⟨h1, h2⟩ := ih (removeChar s c) d h
      rw [removeChar_data, List.mem_filter] at h1
      refine ⟨h1.1, ?_⟩
      have hne : d ≠ c := by simpa using h1.2
      simp [List.mem_cons, hne, h2]

theorem length_foldl_removeChar :
    ∀ (cs : List Char) (s : String),
      (cs.foldl removeChar s).data.length ≤ s.data.length := by
  intro cs
  induction cs with
  | nil => intro s; simp
  | cons c cs' ih =>
      intro s
      rw [List.foldl_cons]
      exact le_trans (ih (removeChar s c))
        (by rw [removeChar_data]; exact List.length_filter_le _ _)

theorem pyStripList_length (l : List Char) : (pyStripList l).length ≤ l.length := by
  unfold pyStripList
  calc ((l.reverse.dropWhile pySpace).reverse.dropWhile pySpace).length
      ≤ (l.reverse.dropWhile pySpace).reverse.length :=
        (List.dropWhile_suffix pySpace).sublist.length_le
    _ = (l.reverse.dropWhile pySpace).length := List.length_reverse _
    _ ≤ l.reverse.length := (List.dropWhile_suffix pySpace).sublist.length_le
    _ = l.length := List.length_reverse _

theorem pyStripList_subset {l : List Char} : pyStripList l ⊆ l := by
  intro d hd
  unfold pyStripList at hd
  have h1 : d ∈ (l.reverse.dropWhile pySpace).reverse :=
    (List.dropWhile_suffix pySpace).sublist.subset hd
  rw [List.mem_reverse] at h1
  have h2 : d ∈ l.reverse := (List.dropWhile_suffix pySpace).sublist.subset h1
  rwa [List.mem_reverse] at h2

theorem pyStripList_head {l : List Char} {c : Char}
    (h : (pyStripList l).head? = some c) : pySpace c = false := by
  have h' := List.head?_dropWhile_not pySpace ((l.reverse.dropWhile pySpace).reverse)
  unfold pyStripList at h
  rw [h] at h'
  exact h'

theorem pyStripList_getLast {l : List Char} {c : Char}
    (h : (pyStripList l).getLast? = some c) : pySpace c = false := by
  unfold pyStripList at h
  obtain ⟨pre, hpre⟩ := List.dropWhile_suffix (l := (l.reverse.dropWhile pySpace).reverse) pySpace
  have h2 : ((l.reverse.dropWhile pySpace).reverse).getLast? = some c := by
    rw [← hpre, List.getLast?_append, h]
    rfl
  rw [List.getLast?_reverse] at h2
  have h3 := List.head?_dropWhile_not pySpace l.reverse
  rw [h2] at h3
  exact h3

/-- Claim C10: for every input title, `clean_filename` returns a string of
length at most 100 that contains none of the invalid filename characters
and has neither leading nor trailing whitespace. -/
theorem C10_clean_filename (title : String) :
    (clean_filename title).length ≤ 100
  ∧ (∀ c, c ∈ (clean_filename title).data → c ∉ invalid_chars)
  ∧ (∀ c, (clean_filename title).data.head? = some c → pySpace c = false)
  ∧ (∀ c, (clean_filename title).data.getLast? = some c → pySpace c = false) := by
  have hdata : (clean_filename title).data =
      pyStripList (if 100 < (invalid_chars.foldl removeChar title).length
          then pyTake (invalid_chars.foldl removeChar title) 100
          else invalid_chars.foldl removeChar title).data := rfl
  refine ⟨?_, ?_, ?_, ?_⟩
  · rw [slength, hdata]
    refine le_trans (pyStripList_length _) ?_
    by_cases h : 100 < (invalid_chars.foldl removeChar title).length
    · rw [if_pos h]
      simp only [pyTake, smk_data]
      exact List.length_take_le 100 _
    · rw [if_neg h]
      exact Nat.le_of_not_lt h
  · intro c hc
    rw [hdata] at hc
    have hc2 := pyStripList_subset hc
    have hc3 : c ∈ (invalid_chars.foldl removeChar title).data := by
      by_cases h : 100 < (invalid_chars.foldl removeChar title).length
      · rw [if_pos h] at hc2
        exact List.take_subset 100 _ hc2
      · rwa [if_neg h] at hc2
    exact (mem_foldl_removeChar invalid_chars title c hc3).2
  · intro c hc
    rw [hdata] at hc
    exact pyStripList_head hc
  · intro c hc
    rw [hdata] at hc
    exact pyStripList_getLast hc

theorem C10_witness :
    clean_filename wTitle = "AB CD"
  ∧ ((clean_filename wTitle).length ≤ 100
  ∧ (∀ c, c ∈ (clean_filename wTitle).data → c ∉ invalid_chars)
  ∧ (∀ c, (clean_filename wTitle).data.head? = some c → pySpace c = false)
  ∧ (∀ c, (clean_filename wTitle).data.getLast? = some c → pySpace c = false)) :=
  ⟨by decide, C10_clean_filename wTitle⟩

/-! ## SQLite text-order lemmas -/

theorem listLe_total (x : List Char) : ∀ y, listLe x y = true ∨ listLe y x = true := by
  induction x with
  | nil => intro y; exact Or.inl rfl
  | cons a as ih =>
      intro y
      cases y with
      | nil => exact Or.inr rfl
      | cons b bs =>
          rcases Nat.lt_trichotomy a.toNat b.toNat with h | h | h
          · exact Or.inl (by simp [listLe, h])
          · rcases ih bs with h' | h'
            · exact Or.inl (by simp [listLe, h, Nat.lt_irrefl, h'])
            · exact Or.inr (by simp [listLe, h, Nat.lt_irrefl, h'])
          · exact Or.inr (by simp [listLe, h])

theorem listLe_trans (x : List Char) :
    ∀ y z, listLe x y = true → listLe y z = true → listLe x z = true := by
  induction x with
  | nil => intro y z _ _; rfl
  | cons a as ih =>
      intro y z h1 h2
      cases y with
      | nil => simp [listLe] at h1
      | cons b bs =>
          cases z with
          | nil => simp [listLe] at h2
          | cons c cs =>
              rcases Nat.lt_trichotomy a.toNat b.toNat with hab | hab | hab
              · rcases Nat.lt_trichotomy b.toNat c.toNat with hbc | hbc | hbc
                · simp [listLe, Nat.lt_trans hab hbc]
                · simp [listLe, hbc ▸ hab]
                · simp [listLe, Nat.lt_asymm hbc, hbc] at h2
              · rw [listLe, if_neg (hab ▸ Nat.lt_irrefl _),
                  if_neg (hab ▸ Nat.lt_irrefl _)] at h1
                rcases Nat.lt_trichotomy b.toNat c.toNat with hbc | hbc | hbc
                · simp [listLe, hab ▸ hbc]
                · rw [listLe, if_neg (hbc ▸ hab ▸ Nat.lt_irrefl _),
                    if_neg (hbc ▸ hab ▸ Nat.lt_irrefl _)]
                  rw [listLe, if_neg (hbc ▸ Nat.lt_irrefl _),
                    if_neg (hbc ▸ Nat.lt_irrefl _)] at h2
                  exact ih bs cs h1 h2
                · simp [listLe, Nat.lt_asymm hbc, hbc] at h2
              · simp [listLe, Nat.lt_asymm hab, hab] at h1

/-! ## Claim C9: the `/videos` listing -/

/-- Claim C9: for every table state, `/videos` returns at most 50 items,
ordered by processed timestamp descending (SQLite BINARY text order), and
every returned item comes from a table row, with summaries longer than 200
characters truncated to their first 200 characters followed by `"..."` and
shorter summaries returned verbatim. -/
theorem C9_video_listing (db : List VideoRow) :
    (get_videos db).length ≤ 50
  ∧ List.Sorted (fun a b : VideoJson => sqliteLe b.processed_at a.processed_at = true)
      (get_videos db)
  ∧ ∀ vj ∈ get_videos db, ∃ r, r ∈ db ∧ vj = renderVideo r
      ∧ (200 < r.summary.length → vj.summary = pyTake r.summary 200 ++ "...")
      ∧ (r.summary.length ≤ 200 → vj.summary = r.summary) := by
  haveI : IsTotal VideoRow byProcessedDesc :=
    ⟨fun a b => listLe_total b.processed_at.data a.processed_at.data⟩
  haveI : IsTrans VideoRow byProcessedDesc :=
    ⟨fun _ _ _ h1 h2 => listLe_trans _ _ _ h2 h1⟩
  refine ⟨?_, ?_, ?_⟩
  · rw [get_videos, List.length_map]
    exact List.length_take_le 50 _
  · have hs : List.Sorted byProcessedDesc (List.insertionSort byProcessedDesc db) :=
      List.sorted_insertionSort byProcessedDesc db
    have ht : List.Sorted byProcessedDesc ((List.insertionSort byProcessedDesc db).take 50) :=
      List.Pairwise.sublist (List.take_sublist 50 _) hs
    exact List.Pairwise.map renderVideo (fun a b hab => hab) ht
  · intro vj hvj
    rw [get_videos, List.mem_map] at hvj
    obtain ⟨r, hr, hrender⟩ := hvj
    have hr2 : r ∈ db :=
      (List.mem_insertionSort byProcessedDesc).mp (List.take_subset 50 _ hr)
    refine ⟨r, hr2, hrender.symm, ?_, ?_⟩
    · intro hlong
      rw [← hrender]
      simp [renderVideo, hlong]
    · intro hshort
      rw [← hrender]
      simp [renderVideo, Nat.not_lt.mpr hshort]

theorem C9_witness :
    get_videos wdb9 = [renderVideo wRow2, renderVideo wRow1]
  ∧ ((get_videos wdb9).length ≤ 50
  ∧ List.Sorted (fun a b : VideoJson => sqliteLe b.processed_at a.processed_at = true)
      (get_videos wdb9)
  ∧ ∀ vj ∈ get_videos wdb9, ∃ r, r ∈ wdb9 ∧ vj = renderVideo r
      ∧ (200 < r.summary.length → vj.summary = pyTake r.summary 200 ++ "...")
      ∧ (r.summary.length ≤ 200 → vj.summary = r.summary)) :=
  ⟨by decide, C9_video_listing wdb9⟩

/-! ## Claim C6: daily-digest idempotence -/

theorem countDate_upsert (ds : List DigestRow) (row : DigestRow) :
    countDate (upsertDigest ds row) row.date = 1 := by
  unfold countDate upsertDigest
  rw [List.filter_append, List.filter_filter]
  have hnil : ds.filter (fun a => (a.date == row.date) && (a.date != row.date)) = [] := by
    apply List.filter_eq_nil_iff.mpr
    intro a _
    by_cases h : a.date = row.date <;> simp [h]
  rw [hnil]
  simp [List.filter]

theorem digestSummaries_upsert (ds : List DigestRow) (row : DigestRow) :
    digestSummaries (upsertDigest ds row) row.date = [row.summary] := by
  unfold digestSummaries upsertDigest
  rw [List.filter_append, List.filter_filter]
  have hnil : ds.filter (fun a => (a.date == row.date) && (a.date != row.date)) = [] := by
    apply List.filter_eq_nil_iff.mpr
    intro a _
    by_cases h : a.date = row.date <;> simp [h]
  rw [hnil]
  simp [List.filter]

/-- Claim C6: running the daily aggregation twice for the same date over the
same `videos` table (and the same deterministic Gemini oracle) leaves at most
one digest row for that date, holding the same digest content as after the
first run: the recomputation is an idempotent upsert, not an append. -/
theorem C6_digest_idempotent (env : MonitorEnv) (now1 now2 : String)
    (videos : List VideoRow) (digests : List DigestRow)
    (hc : countDate digests env.today ≤ 1) :
    countDate (create_daily_summary env now2 videos
        (create_daily_summary env now1 videos digests).1).1 env.today ≤ 1
  ∧ digestSummaries (create_daily_summary env now2 videos
        (create_daily_summary env now1 videos digests).1).1 env.today =
      digestSummaries (create_daily_summary env now1 videos digests).1 env.today := by
  cases h : todaysVideos videos env.today with
  | nil =>
      simp only [create_daily_summary, h]
      exact ⟨hc, trivial⟩
  | cons r rs =>
      simp only [create_daily_summary, h]
      constructor
      · exact le_of_eq (countDate_upsert _ _)
      · rw [digestSummaries_upsert, digestSummaries_upsert]

theorem C6_witness :
    countDate [] trivEnv.today ≤ 1
  ∧ (countDate (create_daily_summary trivEnv "2026-01-01T21:00:00" [wRow1]
        (create_daily_summary trivEnv "2026-01-01T20:00:00" [wRow1] []).1).1
        trivEnv.today ≤ 1
  ∧ digestSummaries (create_daily_summary trivEnv "2026-01-01T21:00:00" [wRow1]
        (create_daily_summary trivEnv "2026-01-01T20:00:00" [wRow1] []).1).1
        trivEnv.today =
      digestSummaries (create_daily_summary trivEnv "2026-01-01T20:00:00" [wRow1] []).1
        trivEnv.today) :=
  ⟨by decide,
   C6_digest_idempotent trivEnv "2026-01-01T20:00:00" "2026-01-01T21:00:00" [wRow1] []
     (by decide)⟩

/-! ## Claim C3: transcript language fallback -/

/-- Claim C3 counterexample: the claim states that a later language tier is
attempted only when the earlier tier fails with a "not found" condition
specifically, and that any other error aborts the whole fetch.  Here tier 1
(`find_transcript(['de'])`) raises a non-not-found error (an HTTP error), yet
`get_transcript` falls through to tier 2 and returns its English transcript
instead of aborting: the bare `except:` clauses do not inspect the error. -/
theorem C3_counterexample :
    cexTL.findTranscript ["de"] = .error (.other "HTTPError")
  ∧ TError.other "HTTPError" ≠ TError.notFound
  ∧ get_transcript cexApi = .success "hello world" "en"
  ∧ isSuccess (get_transcript cexApi) = true :=
  ⟨rfl, by decide, rfl, rfl⟩

/-- Claim C3 amended: the fetcher tries the tiers in strict order — exact
`de`, then exact `en`, then a generated `de`/`en` transcript — and a later
tier is attempted whenever the earlier tier raises *any* exception, not only
"not found"; errors raised while listing transcripts, an error of the final
generated tier, and errors while fetching the selected transcript abort the
whole fetch. -/
theorem C3_amended_fallback (api : TApi) :
    (∀ e, api.listTranscripts = .error e → get_transcript api = .failure e)
  ∧ ∀ tl, api.listTranscripts = .ok tl →
      ((∀ t, tl.findTranscript ["de"] = .ok t → get_transcript api = fetchSelected t)
      ∧ (∀ e t, tl.findTranscript ["de"] = .error e →
          tl.findTranscript ["en"] = .ok t → get_transcript api = fetchSelected t)
      ∧ (∀ e₁ e₂ t, tl.findTranscript ["de"] = .error e₁ →
          tl.findTranscript ["en"] = .error e₂ →
          tl.findGeneratedTranscript ["de", "en"] = .ok t →
          get_transcript api = fetchSelected t)
      ∧ (∀ e₁ e₂ e₃, tl.findTranscript ["de"] = .error e₁ →
          tl.findTranscript ["en"] = .error e₂ →
          tl.findGeneratedTranscript ["de", "en"] = .error e₃ →
          get_transcript api = .failure e₃)) := by
  constructor
  · intro e he
    simp [get_transcript, he]
  · intro tl htl
    refine ⟨?_, ?_, ?_, ?_⟩
    · intro t h1
      simp [get_transcript, htl, h1]
    · intro e t h1 h2
      simp [get_transcript, htl, h1, h2]
    · intro e₁ e₂ t h1 h2 h3
      simp [get_transcript, htl, h1, h2, h3]
    · intro e₁ e₂ e₃ h1 h2 h3
      simp [get_transcript, htl, h1, h2, h3]

theorem C3_amended_witness :
    wTL3.findTranscript ["de"] = .error .notFound
  ∧ wTL3.findTranscript ["en"] = .error .notFound
  ∧ wTL3.findGeneratedTranscript ["de", "en"] = .ok wGenHandle
  ∧ get_transcript wApi3 = fetchSelected wGenHandle
  ∧ get_transcript wApi3 = .success "guten Tag" "de" :=
  ⟨rfl, rfl, rfl,
   ((C3_amended_fallback wApi3).2 wTL3 rfl).2.2.1 .notFound .notFound wGenHandle rfl rfl rfl,
   rfl⟩

/-! ## Claim C2: idempotent discovery -/

theorem countId_upsert_self (db : List VideoRow) (r : VideoRow) :
    countId (upsertVideo db r) r.video_id = 1 := by
  unfold countId upsertVideo
  rw [List.filter_append, List.filter_filter]
  have hnil : db.filter (fun x => (x.video_id == r.video_id) && (x.video_id != r.video_id)) = [] := by
    apply List.filter_eq_nil_iff.mpr
    intro a _
    by_cases h : a.video_id = r.video_id <;> simp [h]
  rw [hnil]
  simp [List.filter]

theorem countId_upsert_other (db : List VideoRow) (r : VideoRow) (i : String)
    (h : r.video_id ≠ i) : countId (upsertVideo db r) i = countId db i := by
  unfold countId upsertVideo
  rw [List.filter_append, List.filter_filter]
  have h1 : List.filter (fun x => (x.video_id == i) && (x.video_id != r.video_id)) db =
      List.filter (fun x => x.video_id == i) db := by
    apply List.filter_congr
    intro x _
    by_cases hx : x.video_id = i
    · simp [hx, Ne.symm h]
    · simp [hx]
  have h2 : List.filter (fun x : VideoRow => x.video_id == i) [r] = [] := by
    have : (r.video_id == i) = false := by simp [h]
    simp [List.filter, this]
  rw [h1, h2, List.append_nil]

theorem hasVideo_upsert_self (db : List VideoRow) (r : VideoRow) :
    hasVideo (upsertVideo db r) r.video_id = true := by
  unfold hasVideo upsertVideo
  simp

theorem hasVideo_upsert_mono (db : List VideoRow) (r : VideoRow) (i : String)
    (h : hasVideo db i = true) : hasVideo (upsertVideo db r) i = true := by
  unfold hasVideo at h ⊢
  unfold upsertVideo
  rw [List.any_append]
  obtain ⟨x, hx, hxi⟩ := List.any_eq_true.mp h
  by_cases hri : r.video_id = i
  · simp [List.any, hri]
  · have hA : (db.filter (fun y => y.video_id != r.video_id)).any
        (fun y => y.video_id == i) = true := by
      apply List.any_eq_true.mpr
      refine ⟨x, List.mem_filter.mpr ⟨hx, ?_⟩, hxi⟩
      have hxi' : x.video_id = i := by simpa using hxi
      simp [hxi', Ne.symm hri]
    rw [hA, Bool.true_or]

theorem hasVideo_one_le_countId (db : List VideoRow) (i : String)
    (h : hasVideo db i = true) : 1 ≤ countId db i := by
  unfold hasVideo at h
  unfold countId
  obtain ⟨x, hx, hxi⟩ := List.any_eq_true.mp h
  exact List.length_pos_of_mem (List.mem_filter.mpr ⟨hx, hxi⟩)

theorem save_video_upsert (env : MonitorEnv) (db : List VideoRow) (vd : VideoData) :
    ∃ row : VideoRow, save_video_to_db_and_drive env db vd = upsertVideo db row
      ∧ row.video_id = vd.video_id :=
  ⟨_, rfl, rfl⟩

theorem processItem_of_present (env : MonitorEnv) (ch : String) (db : List VideoRow)
    (v : RawVideo) (h : hasVideo db v.videoId = true) :
    processItem env ch db v = (db, 0) := by
  simp [processItem, h]

theorem processItem_of_failure (env : MonitorEnv) (ch : String) (db : List VideoRow)
    (v : RawVideo) (e : TError) (h : get_transcript (env.tapi v.videoId) = .failure e) :
    processItem env ch db v = (db, 0) := by
  by_cases hp : hasVideo db v.videoId = true
  · simp [processItem, hp]
  · simp [processItem, hp, h]

theorem processItem_save (env : MonitorEnv) (ch : String) (db : List VideoRow)
    (v : RawVideo) (text lang : String)
    (hp : ¬ hasVideo db v.videoId = true)
    (h : get_transcript (env.tapi v.videoId) = .success text lang) :
    processItem env ch db v =
      (save_video_to_db_and_drive env db ⟨v.videoId, ch, v.title, v.publishedAt, text,
        (smart_chunk_processing env.net text).1⟩, 1) := by
  simp [processItem, hp, h]

theorem processItem_shape (env : MonitorEnv) (ch : String) (db : List VideoRow)
    (v : RawVideo) :
    processItem env ch db v = (db, 0) ∨
    ∃ row : VideoRow, row.video_id = v.videoId ∧
      processItem env ch db v = (upsertVideo db row, 1) := by
  by_cases hp : hasVideo db v.videoId = true
  · exact Or.inl (processItem_of_present env ch db v hp)
  · cases hg : get_transcript (env.tapi v.videoId) with
    | failure e => exact Or.inl (processItem_of_failure env ch db v e hg)
    | success t l =>
        right
        obtain ⟨row, hrow, hid⟩ := save_video_upsert env db
          ⟨v.videoId, ch, v.title, v.publishedAt, t, (smart_chunk_processing env.net t).1⟩
        exact ⟨row, hid, by rw [processItem_save env ch db v t l hp hg, hrow]⟩

theorem processItem_mono (env : MonitorEnv) (ch : String) (db : List VideoRow)
    (v : RawVideo) (i : String) (h : hasVideo db i = true) :
    hasVideo (processItem env ch db v).1 i = true := by
  rcases processItem_shape env ch db v with hs | ⟨row, _, hs⟩
  · rw [hs]; exact h
  · rw [hs]; exact hasVideo_upsert_mono db row i h

theorem processItem_count (env : MonitorEnv) (ch : String) (db : List VideoRow)
    (v : RawVideo) (i : String) (h : countId db i ≤ 1) :
    countId (processItem env ch db v).1 i ≤ 1 := by
  rcases processItem_shape env ch db v with hs | ⟨row, _, hs⟩
  · rw [hs]; exact h
  · rw [hs]
    by_cases hri : row.video_id = i
    · rw [← hri]
      exact le_of_eq (countId_upsert_self db row)
    · rw [countId_upsert_other db row i hri]
      exact h

theorem processItem_success_present (env : MonitorEnv) (ch : String) (db : List VideoRow)
    (v : RawVideo) (hs : isSuccess (get_transcript (env.tapi v.videoId)) = true) :
    hasVideo (processItem env ch db v).1 v.videoId = true := by
  by_cases hp : hasVideo db v.videoId = true
  · rw [processItem_of_present env ch db v hp]
    exact hp
  · cases hg : get_transcript (env.tapi v.videoId) with
    | failure e => rw [hg] at hs; simp [isSuccess] at hs
    | success t l =>
        rw [processItem_save env ch db v t l hp hg]
        obtain ⟨row, hrow, hid⟩ := save_video_upsert env db
          ⟨v.videoId, ch, v.title, v.publishedAt, t, (smart_chunk_processing env.net t).1⟩
        show hasVideo (save_video_to_db_and_drive env db _) v.videoId = true
        rw [hrow]
        have : row.video_id = v.videoId := hid
        rw [← this]
        exact hasVideo_upsert_self db row

theorem processItem_noop (env : MonitorEnv) (ch : String) (db : List VideoRow)
    (v : RawVideo)
    (h : isSuccess (get_transcript (env.tapi v.videoId)) = true →
      hasVideo db v.videoId = true) :
    processItem env ch db v = (db, 0) := by
  by_cases hp : hasVideo db v.videoId = true
  · exact processItem_of_present env ch db v hp
  · cases hg : get_transcript (env.tapi v.videoId) with
    | failure e => exact processItem_of_failure env ch db v e hg
    | success t l => exact absurd (h (by simp [hg, isSuccess])) hp

theorem processItems_mono (env : MonitorEnv) (ch : String) :
    ∀ (vs : List RawVideo) (db : List VideoRow) (i : String),
      hasVideo db i = true → hasVideo (processItems env ch vs db).1 i = true := by
  intro vs
  induction vs with
  | nil => intro db i h; exact h
  | cons v rest ih =>
      intro db i h
      simp only [processItems]
      exact ih _ i (processItem_mono env ch db v i h)

theorem processItems_count (env : MonitorEnv) (ch : String) :
    ∀ (vs : List RawVideo) (db : List VideoRow) (i : String),
      countId db i ≤ 1 → countId (processItems env ch vs db).1 i ≤ 1 := by
  intro vs
  induction vs with
  | nil => intro db i h; exact h
  | cons v rest ih =>
      intro db i h
      simp only [processItems]
      exact ih _ i (processItem_count env ch db v i h)

theorem processItems_present (env : MonitorEnv) (ch : String) :
    ∀ (vs : List RawVideo) (db : List VideoRow) (v : RawVideo), v ∈ vs →
      isSuccess (get_transcript (env.tapi v.videoId)) = true →
      hasVideo (processItems env ch vs db).1 v.videoId = true := by
  intro vs
  induction vs with
  | nil => intro db v hv; cases hv
  | cons w rest ih =>
      intro db v hv hs
      simp only [processItems]
      rcases List.mem_cons.mp hv with heq | hv'
      · subst heq
        exact processItems_mono env ch rest _ _ (processItem_success_present env ch db v hs)
      · exact ih _ v hv' hs

theorem processItems_noop (env : MonitorEnv) (ch : String) :
    ∀ (vs : List RawVideo) (db : List VideoRow),
      (∀ v ∈ vs, isSuccess (get_transcript (env.tapi v.videoId)) = true →
        hasVideo db v.videoId = true) →
      processItems env ch vs db = (db, 0) := by
  intro vs
  induction vs with
  | nil => intro db _; rfl
  | cons w rest ih =>
      intro db h
      have hw := processItem_noop env ch db w (h w (List.mem_cons_self w rest))
      simp only [processItems, hw]
      rw [ih db (fun v hv => h v (List.mem_cons_of_mem _ hv))]
      simp

theorem runChannels_mono (env : MonitorEnv) :
    ∀ (chs : List ChannelCfg) (db : List VideoRow) (i : String),
      hasVideo db i = true → hasVideo (runChannels env chs db).1 i = true := by
  intro chs
  induction chs with
  | nil => intro db i h; exact h
  | cons c rest ih =>
      intro db i h
      simp only [runChannels]
      exact ih _ i (processItems_mono env c.name _ db i h)

theorem runChannels_count (env : MonitorEnv) :
    ∀ (chs : List ChannelCfg) (db : List VideoRow) (i : String),
      countId db i ≤ 1 → countId (runChannels env chs db).1 i ≤ 1 := by
  intro chs
  induction chs with
  | nil => intro db i h; exact h
  | cons c rest ih =>
      intro db i h
      simp only [runChannels]
      exact ih _ i (processItems_count env c.name _ db i h)

theorem runChannels_present (env : MonitorEnv) :
    ∀ (chs : List ChannelCfg) (db : List VideoRow) (ch : ChannelCfg) (v : RawVideo),
      ch ∈ chs → v ∈ env.discover ch.channel_id →
      isSuccess (get_transcript (env.tapi v.videoId)) = true →
      hasVideo (runChannels env chs db).1 v.videoId = true := by
  intro chs
  induction chs with
  | nil => intro db ch v hch; cases hch
  | cons c rest ih =>
      intro db ch v hch hv hs
      simp only [runChannels]
      rcases List.mem_cons.mp hch with heq | hch'
      · subst heq
        exact runChannels_mono env rest _ _
          (processItems_present env ch.name _ db v hv hs)
      · exact ih _ ch v hch' hv hs

theorem runChannels_noop (env : MonitorEnv) :
    ∀ (chs : List ChannelCfg) (db : List VideoRow),
      (∀ ch ∈ chs, ∀ v ∈ env.discover ch.channel_id,
        isSuccess (get_transcript (env.tapi v.videoId)) = true →
        hasVideo db v.videoId = true) →
      runChannels env chs db = (db, 0, chs.length) := by
  intro chs
  induction chs with
  | nil => intro db _; rfl
  | cons c rest ih =>
      intro db h
      have hc := processItems_noop env c.name (env.discover c.channel_id) db
        (h c (List.mem_cons_self c rest))
      simp only [runChannels, hc]
      rw [ih db (fun ch hch => h ch (List.mem_cons_of_mem _ hch))]
      simp [List.length_cons]
      omega

/-- Claim C2: running the monitoring pipeline twice against an unchanged
environment (same discovery results, same transcript and Gemini oracles)
leaves the primary store with at most one row per item id (given the UNIQUE
constraint held initially), performs zero primary-store writes in the second
run (whose table state is unchanged), and stores exactly one row for every
discovered item whose transcript fetch succeeds when the hour gate is open:
re-discovery of a recorded id is skipped at the dedup check and the commit is
a unique-keyed upsert. -/
theorem C2_idempotent_discovery (env : MonitorEnv) (hour : Nat) (db0 : List VideoRow)
    (huniq : ∀ i, countId db0 i ≤ 1) :
    (∀ i, countId (monitor_videos env hour db0).db i ≤ 1)
  ∧ (monitor_videos env hour (monitor_videos env hour db0).db).db =
      (monitor_videos env hour db0).db
  ∧ (monitor_videos env hour (monitor_videos env hour db0).db).processed = 0
  ∧ (¬ (hour < 7 ∨ 21 < hour) →
      ∀ ch ∈ YOUTUBERS, ∀ v ∈ env.discover ch.channel_id,
        isSuccess (get_transcript (env.tapi v.videoId)) = true →
        countId (monitor_videos env hour db0).db v.videoId = 1) := by
  by_cases hgate : hour < 7 ∨ 21 < hour
  · simp only [monitor_videos, if_pos hgate]
    exact ⟨huniq, trivial, trivial, fun hcon => absurd hgate hcon⟩
  · simp only [monitor_videos, if_neg hgate]
    have hpresent : ∀ ch ∈ YOUTUBERS, ∀ v ∈ env.discover ch.channel_id,
        isSuccess (get_transcript (env.tapi v.videoId)) = true →
        hasVideo (runChannels env YOUTUBERS db0).1 v.videoId = true :=
      fun ch hch v hv hs => runChannels_present env YOUTUBERS db0 ch v hch hv hs
    have hnoop := runChannels_noop env YOUTUBERS (runChannels env YOUTUBERS db0).1 hpresent
    refine ⟨fun i => runChannels_count env YOUTUBERS db0 i (huniq i), ?_, ?_, ?_⟩
    · rw [hnoop]
    · rw [hnoop]
    · intro _ ch hch v hv hs
      exact le_antisymm
        (runChannels_count env YOUTUBERS db0 v.videoId (huniq v.videoId))
        (hasVideo_one_le_countId _ _ (hpresent ch hch v hv hs))

theorem C2_witness :
    (∀ i, countId [] i ≤ 1)
  ∧ (monitor_videos wEnv2 12 []).processed = 1
  ∧ ((∀ i, countId (monitor_videos wEnv2 12 []).db i ≤ 1)
  ∧ (monitor_videos wEnv2 12 (monitor_videos wEnv2 12 []).db).db =
      (monitor_videos wEnv2 12 []).db
  ∧ (monitor_videos wEnv2 12 (monitor_videos wEnv2 12 []).db).processed = 0
  ∧ (¬ ((12 : Nat) < 7 ∨ 21 < (12 : Nat)) →
      ∀ ch ∈ YOUTUBERS, ∀ v ∈ wEnv2.discover ch.channel_id,
        isSuccess (get_transcript (wEnv2.tapi v.videoId)) = true →
        countId (monitor_videos wEnv2 12 []).db v.videoId = 1)) :=
  ⟨fun i => by simp [countId], by rfl,
   C2_idempotent_discovery wEnv2 12 [] (fun i => by simp [countId])⟩

/-! ## Claim C1: chunk coverage of `smart_chunk_processing` (code bug)

At each chunk boundary the source sets `current_chunk = sentence` and later
appends the next sentence with `current_chunk += sentence + ". "`, so the
`". "` separator between the boundary sentence and its successor is dropped,
and the greedy test `len(current_chunk + sentence) > max_chunk_size` ignores
the two characters of the re-added separator, so a chunk can reach
`max_chunk_size + 2` characters.  Both defects are exhibited on the concrete
oversized transcript `bigT`. -/

theorem splitDot_cons_a (rest acc : List Char) :
    splitDot ('a' :: rest) acc = splitDot rest ('a' :: acc) := by
  simp [splitDot]

theorem splitDot_dot (rest acc : List Char) :
    splitDot ('.' :: ' ' :: rest) acc = acc.reverse :: splitDot rest [] := by
  simp [splitDot]

theorem splitDot_replicate (n : Nat) : ∀ (rest acc : List Char),
    splitDot (List.replicate n 'a' ++ rest) acc
      = splitDot rest (List.replicate n 'a' ++ acc) := by
  induction n with
  | zero => intro rest acc; simp
  | succ k ih =>
      intro rest acc
      rw [List.replicate_succ, List.cons_append, splitDot_cons_a, ih]
      congr 1
      rw [List.append_cons, ← List.replicate_succ' k 'a', List.replicate_succ,
        List.cons_append]

theorem bigT_data :
    bigT.data = List.replicate 30000 'a' ++ ('.' :: ' ' :: 'b' :: '.' :: ' ' :: 'c' :: []) :=
  rfl

theorem bigT_split : pySplit bigT = [bigA, "b", "c"] := by
  rw [pySplit, bigT_data, splitDot_replicate, List.append_nil, splitDot_dot,
    List.reverse_replicate]
  have hrest : splitDot ('b' :: '.' :: ' ' :: 'c' :: []) [] = [['b'], ['c']] := by decide
  rw [hrest]
  rfl

theorem slength_append (a b : String) : (a ++ b).length = a.length + b.length := by
  simp only [slength, sdata_append, List.length_append]

theorem bigA_length : bigA.length = 30000 := by
  rw [slength]
  exact List.length_replicate 30000 'a'

theorem bigT_length : bigT.length = 30006 := by
  rw [slength, bigT_data, List.length_append, List.length_replicate]
  rfl

theorem empty_append_bigA_length : (("" : String) ++ bigA).length = 30000 := by
  rw [slength_append, bigA_length]
  rfl

theorem packChunks_cons_le (maxSize : Nat) (s : String) (rest : List String)
    (cur : String) (h : ¬ maxSize < (cur ++ s).length) :
    packChunks maxSize (s :: rest) cur = packChunks maxSize rest (cur ++ s ++ ". ") := by
  simp only [packChunks]
  rw [if_neg h]

theorem packChunks_cons_gt_ne (maxSize : Nat) (s : String) (rest : List String)
    (cur : String) (h : maxSize < (cur ++ s).length) (hne : ¬ cur = "") :
    packChunks maxSize (s :: rest) cur = cur :: packChunks maxSize rest s := by
  simp only [packChunks]
  rw [if_pos h, if_neg hne]

theorem packChunks_nil_ne (maxSize : Nat) (cur : String) (hne : ¬ cur = "") :
    packChunks maxSize [] cur = [cur] := by
  simp only [packChunks]
  rw [if_neg hne]

theorem bigT_chunks : chunkTranscript 30000 bigT = [bigA ++ ". ", "bc. "] := by
  have h1 : ¬ (30000 < (("" : String) ++ bigA).length) := by
    rw [empty_append_bigA_length]
    decide
  have h2 : 30000 < ((("" : String) ++ bigA ++ ". ") ++ "b").length := by
    rw [slength_append, slength_append, empty_append_bigA_length]
    decide
  have h3 : ¬ (("" : String) ++ bigA ++ ". ") = "" := by
    apply sne_of_data_length
    rw [← slength, slength_append, empty_append_bigA_length]
    decide
  have h4 : ¬ (30000 < (("b" : String) ++ "c").length) := by decide
  have h5 : ¬ (("b" : String) ++ "c" ++ ". ") = "" := by decide
  rw [chunkTranscript, bigT_split,
    packChunks_cons_le 30000 bigA ["b", "c"] "" h1,
    packChunks_cons_gt_ne 30000 "b" ["c"] (("" : String) ++ bigA ++ ". ") h2 h3,
    packChunks_cons_le 30000 "c" [] "b" h4,
    packChunks_nil_ne 30000 (("b" : String) ++ "c" ++ ". ") h5]
  have e1 : ("" : String) ++ bigA ++ ". " = bigA ++ ". " := by
    apply sext
    simp [sdata_append, sempty_data]
  have e2 : ("b" : String) ++ "c" ++ ". " = "bc. " := by decide
  rw [e1, e2]

/-- Claim C1 (code bug): on the oversized transcript `bigT` (30006 characters,
every sentence unit at most 30000 characters) the chunker yields two chunks;
concatenating them does not reproduce the transcript — with or without the
trailing separator the chunker appends — because the `". "` between the
boundary sentences `"b"` and `"c"` is dropped (`"bc. "`), and the first chunk
is 30002 characters long, exceeding `max_chunk_size` although it does not
consist of a single over-length sentence unit. -/
theorem C1_chunk_coverage_bug :
    30000 < bigT.length
  ∧ (∀ s ∈ pySplit bigT, s.length ≤ 30000)
  ∧ chunkTranscript 30000 bigT = [bigA ++ ". ", "bc. "]
  ∧ 30000 < ((chunkTranscript 30000 bigT).headD "").length
  ∧ sconcat (chunkTranscript 30000 bigT) ≠ bigT
  ∧ sconcat (chunkTranscript 30000 bigT) ≠ bigT ++ ". " := by
  have hba : bigA.data = List.replicate 30000 'a' := rfl
  refine ⟨by rw [bigT_length]; decide, ?_, bigT_chunks, ?_, ?_, ?_⟩
  · rw [bigT_split]
    intro s hs
    simp only [List.mem_cons, List.not_mem_nil, or_false] at hs
    rcases hs with rfl | rfl | rfl
    · rw [bigA_length]
    · decide
    · decide
  · rw [bigT_chunks]
    show 30000 < (bigA ++ ". ").length
    rw [slength_append, bigA_length]
    decide
  · rw [bigT_chunks]
    intro h
    have hd := congrArg String.data h
    rw [bigT_data] at hd
    simp only [sconcat, sdata_append, sempty_data, List.append_nil,
      List.append_assoc, hba] at hd
    have := List.append_cancel_left hd
    exact absurd this (by decide)
  · rw [bigT_chunks]
    intro h
    have hd := congrArg String.data h
    rw [sdata_append, bigT_data] at hd
    simp only [sconcat, sdata_append, sempty_data, List.append_nil,
      List.append_assoc, hba] at hd
    have := List.append_cancel_left hd
    exact absurd this (by decide)

/-! ## Claim C7: reducer-failure degradation -/

theorem call_gemini_error (net : String → Except String String) (p e : String)
    (h : net p = .error e) :
    call_gemini_api net p = "Fehler bei der Zusammenfassung: " ++ e := by
  simp [call_gemini_api, h]

theorem call_gemini_ok (net : String → Except String String) (p s : String)
    (h : net p = .ok s) : call_gemini_api net p = s := by
  simp [call_gemini_api, h]

theorem summarizeChunks_cons (net : String → Except String String) (total : Nat)
    (c : String) (rest : List String) (k : Nat) :
    summarizeChunks net total (c :: rest) k =
      (call_gemini_api net (chunkPromptFmt (k + 1) total c) ::
        (summarizeChunks net total rest (k + 1)).1,
       (summarizeChunks net total rest (k + 1)).2 + 1) := rfl

theorem net2_chunkPrompt (i total : Nat) (c : String) :
    net2 (chunkPromptFmt i total c) = .error "boom" := rfl

theorem net2_individualPrompt (t : String) :
    net2 (individualPrompt t) = .ok "Alles gut" := rfl

theorem smart_fst_oversized (net : String → Except String String) (t : String)
    (h : ¬ t.length ≤ 30000) :
    (smart_chunk_processing net t).1 = call_gemini_api net (finalPromptOf net t) := by
  simp only [smart_chunk_processing]
  rw [if_neg h]

theorem smart_snd_oversized (net : String → Except String String) (t : String)
    (h : ¬ t.length ≤ 30000) :
    (smart_chunk_processing net t).2 = (chunkTranscript 30000 t).length + 1 := by
  simp only [smart_chunk_processing]
  rw [if_neg h]
  show (summarizeChunks net (chunkTranscript 30000 t).length
      (chunkTranscript 30000 t) 0).2 + 1 = _
  rw [summarizeChunks_snd]

/-- Claim C7 counterexample: on `bigT` with the oracle `net2` both chunk
calls fail and are replaced by the literal error string, processing continues
to the final reduction (the final prompt is still sent, `k + 1` calls in
total), but the persisted summary is the final call's answer `"Alles gut"`,
which does not contain the error string anywhere — refuting "the error
string is visible in the final summary". -/
theorem C7_counterexample :
    chunkSummariesOf net2 bigT =
      ["Fehler bei der Zusammenfassung: " ++ "boom",
       "Fehler bei der Zusammenfassung: " ++ "boom"]
  ∧ (smart_chunk_processing net2 bigT).1 = "Alles gut"
  ∧ (smart_chunk_processing net2 bigT).2 = (chunkTranscript 30000 bigT).length + 1
  ∧ ¬ ∃ pre post : String, (smart_chunk_processing net2 bigT).1 =
      pre ++ ("Fehler bei der Zusammenfassung: " ++ "boom") ++ post := by
  have hbig : ¬ bigT.length ≤ 30000 := by
    rw [bigT_length]
    decide
  have hfin : (smart_chunk_processing net2 bigT).1 = "Alles gut" := by
    rw [smart_fst_oversized net2 bigT hbig, finalPromptOf,
      call_gemini_ok net2 _ _ (net2_individualPrompt _)]
  refine ⟨?_, hfin, smart_snd_oversized net2 bigT hbig, ?_⟩
  · rw [chunkSummariesOf, bigT_chunks]
    rw [summarizeChunks_cons, summarizeChunks_cons]
    simp only [summarizeChunks]
    rw [call_gemini_error net2 _ _ (net2_chunkPrompt _ _ _),
      call_gemini_error net2 _ _ (net2_chunkPrompt _ _ _)]
  · rintro ⟨pre, post, h⟩
    rw [hfin] at h
    have hl := congrArg String.length h
    rw [slength_append, slength_append] at hl
    have h9 : ("Alles gut" : String).length = 9 := by decide
    have h36 : ("Fehler bei der Zusammenfassung: " ++ "boom" : String).length = 36 := by decide
    rw [h9, h36] at hl
    omega


theorem summarizeChunks_get (net : String → Except String String) (total : Nat) :
    ∀ (cs : List String) (k i : Nat) (c : String), cs[i]? = some c →
      (summarizeChunks net total cs k).1[i]? =
        some (call_gemini_api net (chunkPromptFmt (k + i + 1) total c)) := by
  intro cs
  induction cs with
  | nil => intro k i c h; simp at h
  | cons x rest ih =>
      intro k i c h
      rw [summarizeChunks_cons]
      cases i with
      | zero =>
          rw [List.getElem?_cons_zero] at h
          have hx : x = c := by simpa using h
          subst hx
          show (call_gemini_api net (chunkPromptFmt (k + 1) total x) ::
            (summarizeChunks net total rest (k + 1)).1)[0]? = _
          rw [List.getElem?_cons_zero]
      | succ j =>
          rw [List.getElem?_cons_succ] at h
          show (call_gemini_api net (chunkPromptFmt (k + 1) total x) ::
            (summarizeChunks net total rest (k + 1)).1)[j + 1]? = _
          rw [List.getElem?_cons_succ, ih (k + 1) j c h]
          have e : k + 1 + j + 1 = k + (j + 1) + 1 := by omega
          rw [e]

theorem teilLines_get :
    ∀ (l : List String) (k i : Nat) (c : String), l[i]? = some c →
      (teilLines l k)[i]? = some ("Teil " ++ Nat.repr (k + i + 1) ++ ": " ++ c) := by
  intro l
  induction l with
  | nil => intro k i c h; simp at h
  | cons x rest ih =>
      intro k i c h
      cases i with
      | zero =>
          rw [List.getElem?_cons_zero] at h
          have hx : x = c := by simpa using h
          subst hx
          show (("Teil " ++ Nat.repr (k + 1) ++ ": " ++ x) :: teilLines rest (k + 1))[0]? = _
          rw [List.getElem?_cons_zero]
      | succ j =>
          rw [List.getElem?_cons_succ] at h
          show (("Teil " ++ Nat.repr (k + 1) ++ ": " ++ x) :: teilLines rest (k + 1))[j + 1]? = _
          rw [List.getElem?_cons_succ, ih (k + 1) j c h]
          have e : k + 1 + j + 1 = k + (j + 1) + 1 := by omega
          rw [e]

theorem joinNl_decomp :
    ∀ (l : List String) (i : Nat) (s : String), l[i]? = some s →
      ∃ pre post : String, joinNl l = pre ++ s ++ post := by
  intro l
  induction l with
  | nil => intro i s h; simp at h
  | cons x rest ih =>
      intro i s h
      cases i with
      | zero =>
          rw [List.getElem?_cons_zero] at h
          have hx : x = s := by simpa using h
          subst hx
          cases rest with
          | nil =>
              refine ⟨"", "", ?_⟩
              apply sext
              show x.data = ((("" : String) ++ x) ++ "").data
              simp [sdata_append, sempty_data]
          | cons y ys =>
              refine ⟨"", "\n" ++ joinNl (y :: ys), ?_⟩
              apply sext
              show (x ++ "\n" ++ joinNl (y :: ys)).data = _
              simp [sdata_append, sempty_data, List.append_assoc]
      | succ j =>
          rw [List.getElem?_cons_succ] at h
          obtain ⟨pre, post, hp⟩ := ih j s h
          cases rest with
          | nil => simp at h
          | cons y ys =>
              refine ⟨x ++ "\n" ++ pre, post, ?_⟩
              show x ++ "\n" ++ joinNl (y :: ys) = _
              rw [hp]
              apply sext
              simp [sdata_append, List.append_assoc]

/-- Claim C7 amended: when the reducer call for chunk `i` fails, that chunk's
summary is replaced by the literal error string
`"Fehler bei der Zusammenfassung: <error>"`, chunk processing continues to
the final reduction — all `k + 1` calls are still made and the item's summary
is the final call's output — and the error string is embedded in the final
reduction's input prompt (it is visible in the persisted summary only insofar
as the final reducer call reproduces its prompt). -/
theorem C7_amended_degradation (net : String → Except String String) (t : String)
    (i : Nat) (c e : String)
    (hlen : 30000 < t.length)
    (hc : (chunkTranscript 30000 t)[i]? = some c)
    (herr : net (chunkPromptFmt (i + 1) (chunkTranscript 30000 t).length c) = .error e) :
    (chunkSummariesOf net t)[i]? = some ("Fehler bei der Zusammenfassung: " ++ e)
  ∧ (∃ pre post : String,
      finalPromptOf net t = pre ++ ("Fehler bei der Zusammenfassung: " ++ e) ++ post)
  ∧ smart_chunk_processing net t =
      (call_gemini_api net (finalPromptOf net t),
        (chunkTranscript 30000 t).length + 1) := by
  have h1 : (chunkSummariesOf net t)[i]? =
      some ("Fehler bei der Zusammenfassung: " ++ e) := by
    rw [chunkSummariesOf, summarizeChunks_get net _ _ 0 i c hc]
    have e0 : 0 + i + 1 = i + 1 := by omega
    rw [e0, call_gemini_error net _ e herr]
  refine ⟨h1, ?_, ?_⟩
  · have h2 := teilLines_get (chunkSummariesOf net t) 0 i _ h1
    obtain ⟨pre, post, hp⟩ := joinNl_decomp (teilLines (chunkSummariesOf net t) 0) i _ h2
    refine ⟨INDIVIDUAL_VIDEO_PROMPT_pre ++
      (pre ++ (("Teil " ++ Nat.repr (0 + i + 1)) ++ ": ")), post ++ "\n", ?_⟩
    rw [finalPromptOf, individualPrompt, hp]
    apply sext
    simp [sdata_append, List.append_assoc]
  · simp only [smart_chunk_processing]
    rw [if_neg (Nat.not_le.mpr hlen)]
    show (call_gemini_api net (finalPromptOf net t),
      (summarizeChunks net (chunkTranscript 30000 t).length
        (chunkTranscript 30000 t) 0).2 + 1) = _
    rw [summarizeChunks_snd]

theorem C7_amended_witness :
    (30000 < bigT.length)
  ∧ ((chunkTranscript 30000 bigT)[0]? = some (bigA ++ ". "))
  ∧ net2 (chunkPromptFmt (0 + 1) (chunkTranscript 30000 bigT).length (bigA ++ ". "))
      = .error "boom"
  ∧ ((chunkSummariesOf net2 bigT)[0]? =
      some ("Fehler bei der Zusammenfassung: " ++ "boom")
  ∧ (∃ pre post : String, finalPromptOf net2 bigT =
      pre ++ ("Fehler bei der Zusammenfassung: " ++ "boom") ++ post)
  ∧ smart_chunk_processing net2 bigT =
      (call_gemini_api net2 (finalPromptOf net2 bigT),
        (chunkTranscript 30000 bigT).length + 1)) :=
  ⟨by rw [bigT_length]; decide,
   by rw [bigT_chunks]; rfl,
   net2_chunkPrompt _ _ _,
   C7_amended_degradation net2 bigT 0 (bigA ++ ". ") "boom"
     (by rw [bigT_length]; decide) (by rw [bigT_chunks]; rfl)
     (net2_chunkPrompt _ _ _)⟩

theorem C1_witness : ("b" : String) ∈ pySplit bigT ∧ ("b" : String).length ≤ 30000 :=
  ⟨by rw [bigT_split]; simp,
   C1_chunk_coverage_bug.2.1 "b" (by rw [bigT_split]; simp)⟩
